import Mathlib

/-!
Verification development for the Airtable form-builder backend.

The definitions below are a shallow embedding of the JavaScript source:
  * `src/utils/conditionalLogic.js` — the conditional-visibility rule engine,
  * `src/routes/forms.js` (POST /:formId/submit) — the submission pipeline,
  * `src/utils/webhookCron.js` — the subscription renewal sweep,
  * `src/routes/webhooks.js` (POST /airtable, processWebhookChanges) — the
    notification processor,
  * the auth router's POST /refresh — credential refresh.

JavaScript values appearing in answer maps are modelled by the inductive
`JVal`; an absent object property is `Option.none`.  JS strict equality
(`===`) on the scalar shapes the application produces (strings, numbers,
booleans, null) is structural and is modelled by `jvalBeq`; JS compares
arrays by reference, the model compares them structurally — no claim below
turns on comparing two distinct-but-equal array literals.  Timestamps are
milliseconds since the epoch, modelled as `Int`.
-/

namespace FormBuilder

/-- JavaScript values that can appear as answers / comparison values. -/
inductive JVal where
  | null : JVal
  | str (s : String) : JVal
  | num (n : Int) : JVal
  | bool (b : Bool) : JVal
  | arr (xs : List JVal) : JVal

mutual

/-- Structural Boolean equality on `JVal` (models `===` / `includes`
membership tests on the scalar shapes the application produces). -/
def jvalBeq : JVal → JVal → Bool
  | .null, .null => true
  | .str a, .str b => a == b
  | .num a, .num b => a == b
  | .bool a, .bool b => a == b
  | .arr a, .arr b => jvalListBeq a b
  | _, _ => false

def jvalListBeq : List JVal → List JVal → Bool
  | [], [] => true
  | x :: xs, y :: ys => jvalBeq x y && jvalListBeq xs ys
  | _, _ => false

end

instance : BEq JVal := ⟨jvalBeq⟩

/-- A JS object holding answers: association list, newest binding first. -/
abbrev AnswerMap := List (String × JVal)

/-- Property lookup `obj[key]`; `none` models `undefined`. -/
def amFind : AnswerMap → String → Option JVal
  | [], _ => none
  | (k, v) :: rest, key => if k == key then some v else amFind rest key

/-- Property assignment `obj[key] = v` (new binding shadows any older one). -/
def amInsert (m : AnswerMap) (k : String) (v : JVal) : AnswerMap :=
  (k, v) :: m

/-- The source's missing-answer test:
`answer === undefined || answer === null || answer === ''`. -/
def isMissingVal : Option JVal → Bool
  | none => true
  | some .null => true
  | some (.str s) => s == ""
  | some _ => false

mutual

/-- JS `String(value)` on the value shapes the application produces.
For arrays, JS `Array.prototype.toString` joins elements with commas,
rendering `null` elements as the empty string. -/
def jvalToString : JVal → String
  | .null => "null"
  | .str s => s
  | .num n => toString n
  | .bool b => if b then "true" else "false"
  | .arr xs => jvalArrToString xs

def jvalArrToString : List JVal → String
  | [] => ""
  | [x] => jvalElemToString x
  | x :: xs => jvalElemToString x ++ "," ++ jvalArrToString xs

def jvalElemToString : JVal → String
  | .null => ""
  | .str s => s
  | .num n => toString n
  | .bool b => if b then "true" else "false"
  | .arr xs => jvalArrToString xs

end

/-- JS `hay.includes(needle)` on strings: substring test. -/
def strContains (hay needle : String) : Bool :=
  hay.toList.tails.any (fun t => needle.toList.isPrefixOf t)

/-- One condition of a conditional rule (`{ questionKey, operator, value }`). -/
structure Condition where
  questionKey : String
  operator : String
  value : JVal

/-- A conditional rule `{ logic, conditions }`.  Both properties may be
absent on a raw request object, hence the `Option`s. -/
structure ConditionalRules where
  logic : Option String
  conditions : Option (List Condition)

/-- `evaluateCondition` from `shouldShowQuestion`
(src/utils/conditionalLogic.js lines 21-65). -/
def evaluateCondition (answersSoFar : AnswerMap) (c : Condition) : Bool :=
  let answer := amFind answersSoFar c.questionKey
  if isMissingVal answer then
    -- Only notEquals passes for missing values
    c.operator == "notEquals"
  else
    match answer with
    | none => c.operator == "notEquals"
    | some a =>
      if c.operator == "equals" then
        match a with
        | .arr xs => xs.contains c.value
        | _ => a == c.value
      else if c.operator == "notEquals" then
        match a with
        | .arr xs => !xs.contains c.value
        | _ => !(a == c.value)
      else if c.operator == "contains" then
        match a with
        | .str s => strContains s.toLower (jvalToString c.value).toLower
        | .arr xs =>
            xs.any (fun item =>
              strContains (jvalToString item).toLower (jvalToString c.value).toLower)
        | _ => false
      else
        -- Unknown operator: warn and return false
        false

/-- `shouldShowQuestion(rules, answersSoFar)`
(src/utils/conditionalLogic.js lines 12-79). -/
def shouldShowQuestion (rules : Option ConditionalRules) (answersSoFar : AnswerMap) : Bool :=
  match rules with
  | none => true
  | some r =>
    match r.conditions with
    | none => true
    | some [] => true
    | some conds =>
      let results := conds.map (evaluateCondition answersSoFar)
      if r.logic == some "AND" then
        results.all (· == true)
      else if r.logic == some "OR" then
        results.any (· == true)
      else
        -- Unknown logic operator: warn and default to showing the question
        true

/-- One question of a form definition (the fields the submit route and the
validator consult; `options`/`conditionalRules` may be absent on a raw
request object). -/
structure Question where
  questionKey : String
  airtableFieldName : String
  label : String
  qtype : String
  required : Bool
  options : Option (List JVal)
  conditionalRules : Option ConditionalRules

/-- `getVisibleQuestions(questions, answersSoFar)`
(src/utils/conditionalLogic.js lines 87-91). -/
def getVisibleQuestions (questions : List Question) (answersSoFar : AnswerMap) : List String :=
  (questions.filter (fun q => shouldShowQuestion q.conditionalRules answersSoFar)).map
    (fun q => q.questionKey)

/-- An entry of the `errors` array produced by `validateConditionalRules`.
The logic-operator error carries no condition index, hence the `Option`. -/
structure RuleError where
  questionIndex : Nat
  questionKey : String
  conditionIndex : Option Nat
  error : String

/-- The three errors a single condition can contribute
(src/utils/conditionalLogic.js lines 107-138), in source push order. -/
def conditionErrors (questionKeys : List String) (qIndex : Nat) (qKey : String)
    (condIndex : Nat) (c : Condition) : List RuleError :=
  (if questionKeys.contains c.questionKey then []
   else [⟨qIndex, qKey, some condIndex,
          "Referenced question \"" ++ c.questionKey ++ "\" does not exist"⟩])
  ++ (if c.questionKey == qKey then
        [⟨qIndex, qKey, some condIndex,
          "Question cannot have conditional rule referencing itself"⟩]
      else [])
  ++ (if ["equals", "notEquals", "contains"].contains c.operator then []
      else [⟨qIndex, qKey, some condIndex,
             "Invalid operator \"" ++ c.operator ++ "\""⟩])

/-- The logic-operator check (src/utils/conditionalLogic.js lines 141-147):
`if (rules.logic && !['AND','OR'].includes(rules.logic))`.  An absent or
empty-string (falsy) `logic` produces no error. -/
def logicErrors (qIndex : Nat) (qKey : String) (r : ConditionalRules) : List RuleError :=
  match r.logic with
  | none => []
  | some l =>
      if l == "" then []
      else if ["AND", "OR"].contains l then []
      else [⟨qIndex, qKey, none, "Invalid logic operator \"" ++ l ++ "\""⟩]

/-- All errors contributed by one question.  A question whose rules object
is absent, or whose `conditions` property is absent, is skipped entirely
(`if (!rules || !rules.conditions) return;`). -/
def questionErrors (questionKeys : List String) (qIndex : Nat) (q : Question) : List RuleError :=
  match q.conditionalRules with
  | none => []
  | some r =>
    match r.conditions with
    | none => []
    | some conds =>
        (conds.enum.map (fun p =>
          conditionErrors questionKeys qIndex q.questionKey p.1 p.2)).flatten
        ++ logicErrors qIndex q.questionKey r

/-- `validateConditionalRules(questions)`
(src/utils/conditionalLogic.js lines 98-154); returns `(isValid, errors)`. -/
def validateConditionalRules (questions : List Question) : Bool × List RuleError :=
  let questionKeys := questions.map (fun q => q.questionKey)
  let errors :=
    (questions.enum.map (fun p => questionErrors questionKeys p.1 p.2)).flatten
  (errors.isEmpty, errors)

/-! ### Submission pipeline (src/routes/forms.js, POST /:formId/submit)

The visibility/required pass (lines 302-329) walks `form.questions` in
declared order with an accumulating `answersSoFar` object; the mapping pass
(lines 331-395) then builds the `airtableFields` object.  A 400 response is
modelled by `Except.error` carrying the offending question's key. -/

/-- `if (answers[q.questionKey] !== undefined) answersSoFar[k] = answers[k]`
(lines 324-327): fold a supplied (possibly null/empty) answer into the
accumulating map. -/
def foldAnswer (answers acc : AnswerMap) (k : String) : AnswerMap :=
  match amFind answers k with
  | some v => amInsert acc k v
  | none => acc

/-- The visibility/required loop (lines 305-329).  On success returns the
final `answersSoFar`; on a missing required visible answer, fails naming the
question's key. -/
def validateRequiredLoop (answers : AnswerMap) :
    List Question → AnswerMap → Except String AnswerMap
  | [], acc => .ok acc
  | q :: rest, acc =>
    if shouldShowQuestion q.conditionalRules acc then
      if q.required && isMissingVal (amFind answers q.questionKey) then
        .error q.questionKey
      else
        validateRequiredLoop answers rest (foldAnswer answers acc q.questionKey)
    else
      validateRequiredLoop answers rest acc

/-- One step of the successful walk: what `answersSoFar` becomes after one
question that did not fail. -/
def stepAcc (answers : AnswerMap) (acc : AnswerMap) (q : Question) : AnswerMap :=
  if shouldShowQuestion q.conditionalRules acc then foldAnswer answers acc q.questionKey
  else acc

/-- The `answersSoFar` accumulated over a prefix of questions none of which
failed. -/
def accumAnswers (answers : AnswerMap) (qs : List Question) (acc : AnswerMap) : AnswerMap :=
  qs.foldl (stepAcc answers) acc

/-- A question fails the required check under a given `answersSoFar`:
visible, required, and the candidate answer is undefined/null/empty. -/
def failsAt (answers acc : AnswerMap) (q : Question) : Prop :=
  shouldShowQuestion q.conditionalRules acc = true ∧ q.required = true ∧
    isMissingVal (amFind answers q.questionKey) = true

instance (answers acc : AnswerMap) (q : Question) : Decidable (failsAt answers acc q) := by
  unfold failsAt; infer_instance

/-- An uploaded file as the mapping pass sees it (`req.files`); only the
multipart field name is consulted. -/
structure UploadedFile where
  fieldname : String
  filename : String

/-- `formatFilesForAirtable(files)` — the attachment payload handed to
Airtable.  Its contents (upload URLs) are outside this model; only its
presence in the field map matters to the claims. -/
def formatFilesForAirtable (files : List UploadedFile) : JVal :=
  .arr (files.map (fun f => .str f.filename))

/-- The mapping-pass body for one question (lines 334-395): skip
undefined/null answers, type-validate, and assign
`airtableFields[fieldName]`. -/
def mapQuestionValue (answers : AnswerMap) (files : List UploadedFile)
    (fields : AnswerMap) (q : Question) : Except String AnswerMap :=
  match amFind answers q.questionKey with
  | none => .ok fields
  | some .null => .ok fields
  | some answer =>
    if q.qtype == "singleLineText" || q.qtype == "multilineText" then
      .ok (amInsert fields q.airtableFieldName (.str (jvalToString answer)))
    else if q.qtype == "singleSelect" then
      match q.options with
      | some opts =>
          if opts.contains answer then
            .ok (amInsert fields q.airtableFieldName answer)
          else .error q.questionKey
      | none => .ok (amInsert fields q.airtableFieldName answer)
    else if q.qtype == "multipleSelects" then
      match answer with
      | .arr xs =>
        match q.options with
        | some opts =>
            if (xs.filter (fun opt => !opts.contains opt)).isEmpty then
              .ok (amInsert fields q.airtableFieldName answer)
            else .error q.questionKey
        | none => .ok (amInsert fields q.airtableFieldName answer)
      | _ => .error q.questionKey
    else if q.qtype == "multipleAttachments" then
      let fs := files.filter (fun f => f.fieldname == "file_" ++ q.questionKey)
      if fs.isEmpty then .ok fields
      else .ok (amInsert fields q.airtableFieldName (formatFilesForAirtable fs))
    else
      .ok (amInsert fields q.airtableFieldName answer)

/-- The mapping pass over all questions (lines 332-395), accumulating the
`airtableFields` object. -/
def buildAirtableFields (answers : AnswerMap) (files : List UploadedFile) :
    List Question → AnswerMap → Except String AnswerMap
  | [], fields => .ok fields
  | q :: rest, fields =>
    match mapQuestionValue answers files fields q with
    | .error e => .error e
    | .ok fields1 => buildAirtableFields answers files rest fields1

/-! ### Subscription lifecycle (src/utils/webhookCron.js, src/models/Webhook.js) -/

/-- A Webhook document (the fields the cron sweep and notification
processor read or write). -/
structure Webhook where
  airtableWebhookId : String
  airtableBaseId : String
  airtableTableId : String
  formId : String
  cursor : Int
  isActive : Bool
  lastPingAt : Int
  lastNotificationAt : Option Int
  errorCount : Int
  lastError : Option (String × Int)

/-- Outcome of one renewal attempt inside the sweep's per-webhook try block:
`skipped` models the `continue` branches (form or owner not found), `ok` a
successful `refreshWebhook` call, `failed` a thrown error with its message. -/
inductive RenewOutcome where
  | skipped : RenewOutcome
  | ok : RenewOutcome
  | failed (msg : String) : RenewOutcome

/-- The per-webhook body of the sweep (src/utils/webhookCron.js lines
20-61): success resets `lastPingAt`/`errorCount`; failure increments
`errorCount`, records `lastError`, and deactivates at the third strike. -/
def renewStep (now : Int) (w : Webhook) (outcome : RenewOutcome) : Webhook :=
  match outcome with
  | .skipped => w
  | .ok => { w with lastPingAt := now, errorCount := 0 }
  | .failed msg =>
      let w1 := { w with errorCount := w.errorCount + 1, lastError := some (msg, now) }
      if w1.errorCount ≥ 3 then { w1 with isActive := false } else w1

/-- Six days in milliseconds. -/
def sixDaysMs : Int := 6 * 24 * 60 * 60 * 1000

/-- The sweep's selection predicate (lines 11-16):
`{ isActive: true, lastPingAt: { $lt: sixDaysAgo } }`. -/
def needsRefresh (now : Int) (w : Webhook) : Bool :=
  w.isActive && decide (w.lastPingAt < now - sixDaysMs)

/-- The documents the sweep fetches. -/
def sweepSelect (now : Int) (ws : List Webhook) : List Webhook :=
  ws.filter (needsRefresh now)

/-- Effect of one whole cron sweep on the webhook store: every selected
document goes through `renewStep` with its own outcome (per-item failures
are caught inside the loop and do not stop the sweep); unselected documents
are untouched. -/
def scheduledSweep (now : Int) (outcome : Webhook → RenewOutcome)
    (ws : List Webhook) : List Webhook :=
  ws.map (fun w => if needsRefresh now w then renewStep now w (outcome w) else w)

/-! ### Notification processor (src/routes/webhooks.js) -/

/-- A Response (submission record) document — the fields the processor
reads or writes. -/
structure ResponseDoc where
  formId : String
  airtableRecordId : String
  answers : AnswerMap
  deletedInAirtable : Bool
  lastSyncedAt : Int

/-- One entry of `changedRecordsById`: only the presence of
`change.current && change.current.cellValuesByFieldId` is consulted. -/
structure RecordChange where
  hasCurrentCellValues : Bool

/-- One entry of `changedTablesById`. -/
structure TableChanges where
  changedRecordsById : Option (List (String × RecordChange))
  destroyedRecordIds : Option (List String)
  createdRecordsById : Option (List String)

/-- An inbound notification payload
(`{base, webhook: {id}, timestamp, cursor?, changedTablesById?}`).
`hasBase`/`webhookId` model the `payload.base && payload.webhook` guard. -/
structure NotificationPayload where
  hasBase : Bool
  webhookId : Option String
  timestamp : Int
  cursor : Option Int
  changedTablesById : Option (List (String × TableChanges))

/-- The local store the webhook route touches. -/
structure Db where
  webhooks : List Webhook
  responses : List ResponseDoc

/-- `findOne` + `save`: replace the first element satisfying `p` by its
image under `f`; leave everything else alone. -/
def updateFirst (p : α → Bool) (f : α → α) : List α → List α
  | [] => []
  | x :: xs => if p x then f x :: xs else x :: updateFirst p f xs

/-- The `Response.findOne({airtableRecordId, formId})` match predicate. -/
def respMatches (recordId formId : String) (r : ResponseDoc) : Bool :=
  r.airtableRecordId == recordId && r.formId == formId

/-- Processing of one `changedRecordsById` entry
(src/routes/webhooks.js lines 91-112): if a matching response exists and
the change carries materialized current cell values, stamp
`lastSyncedAt = now`; nothing else is written. -/
def processChangedRecord (now : Int) (formId : String) (rs : List ResponseDoc)
    (recordId : String) (change : RecordChange) : List ResponseDoc :=
  if change.hasCurrentCellValues then
    updateFirst (respMatches recordId formId)
      (fun r => { r with lastSyncedAt := now }) rs
  else rs

/-- Processing of one `destroyedRecordIds` entry (lines 117-135): soft
delete — set `deletedInAirtable = true` and stamp `lastSyncedAt = now`. -/
def processDestroyedRecord (now : Int) (formId : String) (rs : List ResponseDoc)
    (recordId : String) : List ResponseDoc :=
  updateFirst (respMatches recordId formId)
    (fun r => { r with deletedInAirtable := true, lastSyncedAt := now }) rs

/-- `processWebhookChanges(webhook, changedTablesById)` (lines 83-147).
Created records are only counted, never applied. -/
def processWebhookChanges (now : Int) (w : Webhook)
    (changedTablesById : List (String × TableChanges))
    (rs : List ResponseDoc) : List ResponseDoc :=
  match changedTablesById.lookup w.airtableTableId with
  | none => rs
  | some tc =>
    let rs1 :=
      match tc.changedRecordsById with
      | none => rs
      | some entries =>
          entries.foldl
            (fun acc p => processChangedRecord now w.formId acc p.1 p.2) rs
    match tc.destroyedRecordIds with
    | none => rs1
    | some ids => ids.foldl (processDestroyedRecord now w.formId) rs1

/-- The fixed acknowledgement the webhook endpoint sends. -/
structure Ack where
  status : Nat
  success : Bool

/-- `POST /api/webhooks/airtable` (src/routes/webhooks.js lines 32-78).
`saveFails` models the webhook-document save (or any later step) throwing:
the catch block still acknowledges with the same fixed body and no state is
persisted. -/
def airtableWebhookRoute (now : Int) (db : Db) (payload : NotificationPayload)
    (saveFails : Bool) : Ack × Db :=
  if payload.hasBase && payload.webhookId.isSome then
    match db.webhooks.find? (fun w => some w.airtableWebhookId == payload.webhookId) with
    | none => (⟨200, true⟩, db)
    | some w =>
      if saveFails then (⟨200, true⟩, db)
      else
        let w1 := { w with lastNotificationAt := some payload.timestamp,
                           cursor := payload.cursor.getD w.cursor }
        let webhooks1 :=
          updateFirst (fun x => x.airtableWebhookId == w.airtableWebhookId)
            (fun _ => w1) db.webhooks
        let responses1 :=
          match payload.changedTablesById with
          | none => db.responses
          | some cts => processWebhookChanges now w1 cts db.responses
        (⟨200, true⟩, ⟨webhooks1, responses1⟩)
  else
    (⟨200, true⟩, db)

/-! ### Credential refresh (auth router, POST /refresh) -/

/-- A User credential document — the token fields the refresh route
touches. -/
structure UserCred where
  accessToken : String
  refreshToken : Option String
  tokenExpiresAt : Int

/-- A successful token-endpoint response
(`{access_token, refresh_token?, expires_in}`); `expires_in` is seconds. -/
structure TokenResponse where
  access_token : String
  refresh_token : Option String
  expires_in : Int

/-- The JSON the refresh route answers with; `requiresReauth` records
whether the body carries `requiresReauth: true`. -/
structure RefreshResp where
  status : Nat
  success : Bool
  requiresReauth : Bool

/-- `POST /api/auth/refresh` (auth router lines 232-287).  `exchange` is the
refresh-token exchange's result: `none` models the upstream call throwing
(non-2xx).  JS only stores a *truthy* new refresh token
(`if (refresh_token) ...`), so an issued empty string is ignored. -/
def refreshRoute (now : Int) (user : UserCred) (exchange : Option TokenResponse) :
    RefreshResp × UserCred :=
  match user.refreshToken with
  | none => (⟨400, false, false⟩, user)
  | some _ =>
    match exchange with
    | none => (⟨400, false, true⟩, user)
    | some t =>
      let newRefresh :=
        match t.refresh_token with
        | some rt => if rt == "" then user.refreshToken else some rt
        | none => user.refreshToken
      let user1 : UserCred :=
        { accessToken := t.access_token
          refreshToken := newRefresh
          tokenExpiresAt := now + t.expires_in * 1000 }
      (⟨200, true, false⟩, user1)

/-! ### Theorems -/

/-- Claim C2: for every condition whose target question key maps to a
missing (undefined), null, or empty-string answer in answers-so-far,
evaluation of that condition returns `true` if and only if the condition's
operator is `notEquals`; with such an answer, `equals` and `contains` both
evaluate to `false`, for every comparison value. -/
theorem evaluateCondition_missing_answer (m : AnswerMap) (c : Condition)
    (h : isMissingVal (amFind m c.questionKey) = true) :
    (evaluateCondition m c = true ↔ c.operator = "notEquals")
    ∧ (c.operator = "equals" → evaluateCondition m c = false)
    ∧ (c.operator = "contains" → evaluateCondition m c = false) := by
  refine ⟨?_, ?_, ?_⟩
  · simp [evaluateCondition, h]
  · intro hop; simp only [evaluateCondition, h, if_true, hop]; decide
  · intro hop; simp only [evaluateCondition, h, if_true, hop]; decide

/-- Witness for C2: in an empty answer map every key is missing; a
`notEquals` condition evaluates `true` there, and with a null answer an
`equals` condition evaluates `false`. -/
theorem evaluateCondition_missing_answer_witness :
    isMissingVal (amFind [] "role") = true
    ∧ evaluateCondition [] ⟨"role", "notEquals", .str "Engineer"⟩ = true
    ∧ evaluateCondition [("role", .null)] ⟨"role", "equals", .str "Engineer"⟩ = false :=
  ⟨rfl,
   (evaluateCondition_missing_answer [] ⟨"role", "notEquals", .str "Engineer"⟩ rfl).1.mpr rfl,
   (evaluateCondition_missing_answer [("role", .null)]
      ⟨"role", "equals", .str "Engineer"⟩ rfl).2.1 rfl⟩

/-- Claim C4: for every webhook subscription processed by the renewal
sweep, a failed renewal increments the consecutive-error counter and
records the error message and timestamp, and when the counter reaches 3 the
active flag is cleared; a successful renewal resets the counter to 0 and
sets `lastPingAt` to now; hence after an intervening success two further
consecutive failures leave the subscription active and the third retires
it. -/
theorem renewStep_three_strikes (now t1 t2 t3 : Int) (w : Webhook)
    (msg m1 m2 m3 : String) :
    (renewStep now w (.failed msg)).errorCount = w.errorCount + 1
    ∧ (renewStep now w (.failed msg)).lastError = some (msg, now)
    ∧ (renewStep now w (.failed msg)).isActive =
        (if w.errorCount + 1 ≥ 3 then false else w.isActive)
    ∧ (renewStep now w (.failed msg)).lastPingAt = w.lastPingAt
    ∧ (renewStep now w .ok).errorCount = 0
    ∧ (renewStep now w .ok).lastPingAt = now
    ∧ (renewStep now w .ok).isActive = w.isActive
    ∧ (renewStep t2 (renewStep t1 (renewStep now w .ok) (.failed m1))
        (.failed m2)).isActive = w.isActive
    ∧ (renewStep t3 (renewStep t2 (renewStep t1 (renewStep now w .ok)
        (.failed m1)) (.failed m2)) (.failed m3)).isActive = false := by
  have hfail : ∀ (t : Int) (v : Webhook) (m : String),
      renewStep t v (.failed m) =
        if v.errorCount + 1 ≥ 3 then
          { v with errorCount := v.errorCount + 1, lastError := some (m, t),
                   isActive := false }
        else { v with errorCount := v.errorCount + 1, lastError := some (m, t) } :=
    fun _ _ _ => rfl
  refine ⟨?_, ?_, ?_, ?_, rfl, rfl, rfl, ?_, ?_⟩
  · rw [hfail]; split <;> rfl
  · rw [hfail]; split <;> rfl
  · rw [hfail]; split <;> rfl
  · rw [hfail]; split <;> rfl
  · simp only [renewStep, hfail]
    norm_num
  · simp only [renewStep, hfail]
    norm_num

/-- Claim C5: the scheduled sweep selects exactly the webhooks that are
active and whose `lastPingAt` is older than 6 days before the sweep time,
and puts exactly the selected ones through a renewal attempt; a webhook
pinged 7 days ago is selected, one pinged 1 day ago is not, and an
inactive webhook is never selected. -/
theorem scheduledSweep_selection (now : Int) (ws : List Webhook) (w : Webhook)
    (outcome : Webhook → RenewOutcome) :
    (w ∈ sweepSelect now ws ↔
       w ∈ ws ∧ w.isActive = true ∧ w.lastPingAt < now - sixDaysMs)
    ∧ (∀ (i : Nat) (w' : Webhook), ws[i]? = some w' →
        (scheduledSweep now outcome ws)[i]? =
          some (if needsRefresh now w' then renewStep now w' (outcome w') else w'))
    ∧ (w.isActive = true → w.lastPingAt = now - 7 * 24 * 60 * 60 * 1000 →
        needsRefresh now w = true)
    ∧ (w.lastPingAt = now - 1 * 24 * 60 * 60 * 1000 → needsRefresh now w = false)
    ∧ (w.isActive = false → needsRefresh now w = false) := by
  refine ⟨?_, ?_, ?_, ?_, ?_⟩
  · simp [sweepSelect, List.mem_filter, needsRefresh, and_assoc]
  · intro i w' h
    simp [scheduledSweep, List.getElem?_map, h]
  · intro ha hp
    simp only [needsRefresh, ha, Bool.true_and, decide_eq_true_iff, hp, sixDaysMs]
    omega
  · intro hp
    simp only [needsRefresh, hp, sixDaysMs, Bool.and_eq_false_iff, decide_eq_false_iff_not,
      not_lt]
    right
    omega
  · intro ha
    simp [needsRefresh, ha]

/-- Witness for C5: at sweep time 0, an active webhook last pinged 7 days
ago is selected and renewed in place; one last pinged 1 day ago is not
selected; an inactive one is never selected. -/
theorem scheduledSweep_selection_witness :
    needsRefresh 0 ⟨"wh1", "b", "t", "f", 1, true, -604800000, none, 0, none⟩ = true
    ∧ needsRefresh 0 ⟨"wh2", "b", "t", "f", 1, true, -86400000, none, 0, none⟩ = false
    ∧ needsRefresh 0 ⟨"wh3", "b", "t", "f", 1, false, -604800000, none, 0, none⟩ = false :=
  ⟨(scheduledSweep_selection 0 [] ⟨"wh1", "b", "t", "f", 1, true, -604800000, none, 0, none⟩
      (fun _ => .ok)).2.2.1 rfl (by norm_num),
   (scheduledSweep_selection 0 [] ⟨"wh2", "b", "t", "f", 1, true, -86400000, none, 0, none⟩
      (fun _ => .ok)).2.2.2.1 (by norm_num),
   (scheduledSweep_selection 0 [] ⟨"wh3", "b", "t", "f", 1, false, -604800000, none, 0, none⟩
      (fun _ => .ok)).2.2.2.2 rfl⟩

/-- Counterexample to claim C9 as stated: when the credential has no
refresh token the route fails (400, success false) and leaves the
credential unchanged, but its response body does not carry the
`requiresReauth: true` reauthorization signal that the failure of the
exchange itself produces. -/
theorem refreshRoute_missing_token_counterexample :
    (refreshRoute 0 ⟨"tok", none, 0⟩ none).1.status = 400
    ∧ (refreshRoute 0 ⟨"tok", none, 0⟩ none).1.success = false
    ∧ ¬ (refreshRoute 0 ⟨"tok", none, 0⟩ none).1.requiresReauth = true
    ∧ (refreshRoute 0 ⟨"tok", none, 0⟩ none).2 = ⟨"tok", none, 0⟩ := by
  refine ⟨rfl, rfl, ?_, rfl⟩
  intro h
  exact Bool.false_ne_true h

/-- Claim C9 (amended): on a successful refresh-token exchange the stored
access token is replaced, the stored refresh token is replaced only if the
exchange issued a new (non-empty) one, and the expiry is recomputed as
`now + expires_in` seconds; on an exchange failure the route responds 400
with the `requiresReauth` signal and leaves the stored credential
unchanged; when the credential has no refresh token the route responds 400
(success false) without the `requiresReauth` flag, also leaving the stored
credential unchanged. -/
theorem refreshRoute_spec (now : Int) (user : UserCred)
    (exchange : Option TokenResponse) :
    (user.refreshToken = none →
       refreshRoute now user exchange = (⟨400, false, false⟩, user))
    ∧ (∀ rt, user.refreshToken = some rt → exchange = none →
       refreshRoute now user exchange = (⟨400, false, true⟩, user))
    ∧ (∀ rt t, user.refreshToken = some rt → exchange = some t →
        (refreshRoute now user exchange).1 = ⟨200, true, false⟩
        ∧ (refreshRoute now user exchange).2.accessToken = t.access_token
        ∧ (refreshRoute now user exchange).2.tokenExpiresAt = now + t.expires_in * 1000
        ∧ ((t.refresh_token = none ∨ t.refresh_token = some "") →
            (refreshRoute now user exchange).2.refreshToken = user.refreshToken)
        ∧ (∀ nrt, t.refresh_token = some nrt → nrt ≠ "" →
            (refreshRoute now user exchange).2.refreshToken = some nrt)) := by
  refine ⟨?_, ?_, ?_⟩
  · intro h; simp [refreshRoute, h]
  · intro rt h he; simp [refreshRoute, h, he]
  · intro rt t h he
    refine ⟨?_, ?_, ?_, ?_, ?_⟩
    · simp [refreshRoute, h, he]
    · simp [refreshRoute, h, he]
    · simp [refreshRoute, h, he]
    · rintro (hn | hn) <;> simp [refreshRoute, h, he, hn]
    · intro nrt hn hne
      simp [refreshRoute, h, he, hn, hne]

/-- Witness for C9 (amended): a concrete successful exchange replaces the
access token, adopts the newly issued refresh token, and recomputes the
expiry; a concrete failed exchange leaves the credential unchanged and
signals reauthorization. -/
theorem refreshRoute_spec_witness :
    (refreshRoute 100 ⟨"old", some "r", 5⟩ (some ⟨"new", some "r2", 60⟩)).2.accessToken = "new"
    ∧ (refreshRoute 100 ⟨"old", some "r", 5⟩ (some ⟨"new", some "r2", 60⟩)).2.refreshToken
        = some "r2"
    ∧ (refreshRoute 100 ⟨"old", some "r", 5⟩ (some ⟨"new", some "r2", 60⟩)).2.tokenExpiresAt
        = 100 + 60 * 1000
    ∧ refreshRoute 100 ⟨"old", some "r", 5⟩ none = (⟨400, false, true⟩, ⟨"old", some "r", 5⟩) :=
  ⟨((refreshRoute_spec 100 ⟨"old", some "r", 5⟩ (some ⟨"new", some "r2", 60⟩)).2.2
      "r" ⟨"new", some "r2", 60⟩ rfl rfl).2.1,
   ((refreshRoute_spec 100 ⟨"old", some "r", 5⟩ (some ⟨"new", some "r2", 60⟩)).2.2
      "r" ⟨"new", some "r2", 60⟩ rfl rfl).2.2.2.2 "r2" rfl (by decide),
   ((refreshRoute_spec 100 ⟨"old", some "r", 5⟩ (some ⟨"new", some "r2", 60⟩)).2.2
      "r" ⟨"new", some "r2", 60⟩ rfl rfl).2.2.1,
   (refreshRoute_spec 100 ⟨"old", some "r", 5⟩ none).2.1 "r" rfl rfl⟩

section UpdateFirstLemmas

variable {α β : Type}

theorem updateFirst_length (p : α → Bool) (f : α → α) :
    ∀ l : List α, (updateFirst p f l).length = l.length := by
  intro l
  induction l with
  | nil => rfl
  | cons x xs ih =>
    by_cases hx : p x = true <;> simp [updateFirst, hx, ih]

theorem updateFirst_getElem? (p : α → Bool) (f : α → α) (l : List α) (i : Nat) :
    (updateFirst p f l)[i]? = l[i]? ∨
      ∃ r, l[i]? = some r ∧ (updateFirst p f l)[i]? = some (f r) := by
  induction l generalizing i with
  | nil => left; rfl
  | cons x xs ih =>
    by_cases hx : p x = true
    · cases i with
      | zero => right; exact ⟨x, by simp, by simp [updateFirst, hx]⟩
      | succ n => left; simp [updateFirst, hx]
    · cases i with
      | zero => left; simp [updateFirst, hx]
      | succ n => simpa [updateFirst, hx] using ih n

theorem updateFirst_find? (p : α → Bool) (f : α → α) (hp : ∀ x, p (f x) = p x) :
    ∀ l : List α, (updateFirst p f l).find? p = (l.find? p).map f := by
  intro l
  induction l with
  | nil => rfl
  | cons x xs ih =>
    by_cases hx : p x = true
    · simp [updateFirst, hx, List.find?_cons, hp x]
    · simp [updateFirst, hx, List.find?_cons, ih]

theorem updateFirst_idem (p : α → Bool) (f : α → α)
    (hp : ∀ x, p (f x) = p x) (hf : ∀ x, f (f x) = f x) :
    ∀ l : List α, updateFirst p f (updateFirst p f l) = updateFirst p f l := by
  intro l
  induction l with
  | nil => rfl
  | cons x xs ih =>
    by_cases hx : p x = true
    · simp [updateFirst, hx, hp x, hf x]
    · simp [updateFirst, hx, ih]

theorem updateFirst_map_eq (p : α → Bool) (f1 f2 : α → α) (g : α → β)
    (hp : ∀ x, p (f1 x) = p x) (hg : ∀ x, g (f2 (f1 x)) = g (f1 x)) :
    ∀ l : List α, (updateFirst p f2 (updateFirst p f1 l)).map g =
      (updateFirst p f1 l).map g := by
  intro l
  induction l with
  | nil => rfl
  | cons x xs ih =>
    by_cases hx : p x = true
    · simp [updateFirst, hx, hp x, hg x]
    · simp [updateFirst, hx, ih]

end UpdateFirstLemmas

/-- Claim C6: for every inbound notification payload, the notification
endpoint responds with the fixed success acknowledgement (HTTP 200,
success body) regardless of internal processing outcome; when the
payload's webhook id matches no locally stored webhook it acknowledges and
makes no state change, and when internal processing throws it still
acknowledges rather than surfacing the failure. -/
theorem airtableWebhookRoute_always_acks (now : Int) (db : Db)
    (payload : NotificationPayload) (saveFails : Bool) :
    (airtableWebhookRoute now db payload saveFails).1.status = 200
    ∧ (airtableWebhookRoute now db payload saveFails).1.success = true
    ∧ ((payload.hasBase && payload.webhookId.isSome) = true →
        db.webhooks.find? (fun w => some w.airtableWebhookId == payload.webhookId) = none →
        (airtableWebhookRoute now db payload saveFails).2 = db)
    ∧ (saveFails = true → (airtableWebhookRoute now db payload saveFails).2 = db) := by
  by_cases hg : (payload.hasBase && payload.webhookId.isSome) = true
  · cases hfind : db.webhooks.find? (fun w => some w.airtableWebhookId == payload.webhookId) with
    | none => refine ⟨?_, ?_, ?_, ?_⟩ <;> simp [airtableWebhookRoute, hg, hfind]
    | some w =>
      cases saveFails with
      | true => refine ⟨?_, ?_, ?_, ?_⟩ <;> simp [airtableWebhookRoute, hg, hfind]
      | false =>
        refine ⟨?_, ?_, ?_, ?_⟩ <;> simp [airtableWebhookRoute, hg, hfind]
  · refine ⟨?_, ?_, ?_, ?_⟩ <;> simp [airtableWebhookRoute, hg]

/-- Witness for C6: a payload for an unknown webhook id against an empty
store is acknowledged with 200/success and the store is unchanged; so is a
payload whose processing throws. -/
theorem airtableWebhookRoute_always_acks_witness :
    (airtableWebhookRoute 0 ⟨[], []⟩ ⟨true, some "whX", 7, none, none⟩ false).1.status = 200
    ∧ (airtableWebhookRoute 0 ⟨[], []⟩ ⟨true, some "whX", 7, none, none⟩ false).1.success = true
    ∧ (airtableWebhookRoute 0 ⟨[], []⟩ ⟨true, some "whX", 7, none, none⟩ false).2 = ⟨[], []⟩
    ∧ (airtableWebhookRoute 0 ⟨[], []⟩ ⟨true, some "whX", 7, none, none⟩ true).2 = ⟨[], []⟩ :=
  ⟨(airtableWebhookRoute_always_acks 0 ⟨[], []⟩ ⟨true, some "whX", 7, none, none⟩ false).1,
   (airtableWebhookRoute_always_acks 0 ⟨[], []⟩ ⟨true, some "whX", 7, none, none⟩ false).2.1,
   (airtableWebhookRoute_always_acks 0 ⟨[], []⟩ ⟨true, some "whX", 7, none, none⟩
      false).2.2.1 rfl rfl,
   (airtableWebhookRoute_always_acks 0 ⟨[], []⟩ ⟨true, some "whX", 7, none, none⟩
      true).2.2.2 rfl⟩

/-- Claim C7: processing a destroyed-record notification is idempotent:
replaying the identical notification leaves the store exactly as after the
first processing (same wall time), leaves every record's
`deletedInAirtable` flag unchanged even at a later wall time, and the
record matched by `(airtableRecordId, formId)` has `deletedInAirtable =
true` after the first processing. -/
theorem processDestroyedRecord_idempotent (now now2 : Int)
    (formId recordId : String) (rs : List ResponseDoc) :
    processDestroyedRecord now formId
        (processDestroyedRecord now formId rs recordId) recordId
      = processDestroyedRecord now formId rs recordId
    ∧ (processDestroyedRecord now2 formId
          (processDestroyedRecord now formId rs recordId) recordId).map
        (fun r => r.deletedInAirtable)
      = (processDestroyedRecord now formId rs recordId).map
          (fun r => r.deletedInAirtable)
    ∧ (∀ r, (processDestroyedRecord now formId rs recordId).find?
          (respMatches recordId formId) = some r →
        r.deletedInAirtable = true) := by
  unfold processDestroyedRecord
  refine ⟨updateFirst_idem (respMatches recordId formId)
            (fun r => { r with deletedInAirtable := true, lastSyncedAt := now })
            (fun x => rfl) (fun x => rfl) rs,
          updateFirst_map_eq (respMatches recordId formId)
            (fun r => { r with deletedInAirtable := true, lastSyncedAt := now })
            (fun r => { r with deletedInAirtable := true, lastSyncedAt := now2 })
            (fun r => r.deletedInAirtable)
            (fun x => rfl) (fun x => rfl) rs, ?_⟩
  intro r hr
  rw [updateFirst_find? (respMatches recordId formId)
        (fun r => { r with deletedInAirtable := true, lastSyncedAt := now })
        (fun x => rfl) rs] at hr
  obtain ⟨r0, _, hfr⟩ := Option.map_eq_some'.mp hr
  rw [← hfr]

/-- Witness for C7: a one-record store; destroying `rec1` twice equals
destroying it once, and the matched record's flag is `true`. -/
theorem processDestroyedRecord_idempotent_witness :
    processDestroyedRecord 5 "f1"
        (processDestroyedRecord 5 "f1" [⟨"f1", "rec1", [], false, 0⟩] "rec1") "rec1"
      = processDestroyedRecord 5 "f1" [⟨"f1", "rec1", [], false, 0⟩] "rec1"
    ∧ (⟨"f1", "rec1", [], true, 5⟩ : ResponseDoc).deletedInAirtable = true :=
  ⟨(processDestroyedRecord_idempotent 5 5 "f1" "rec1" [⟨"f1", "rec1", [], false, 0⟩]).1,
   (processDestroyedRecord_idempotent 5 5 "f1" "rec1"
      [⟨"f1", "rec1", [], false, 0⟩]).2.2 ⟨"f1", "rec1", [], true, 5⟩ rfl⟩

/-- Claim C8: when a changed-record notification carrying materialized
current cell values matches a local submission record by
`(airtableRecordId, formId)`, processing sets only that record's
`lastSyncedAt`; every record's answers map, `deletedInAirtable` flag and
identifying keys are left unchanged. -/
theorem processChangedRecord_frame (now : Int) (formId recordId : String)
    (ch : RecordChange) (rs : List ResponseDoc) :
    (processChangedRecord now formId rs recordId ch).length = rs.length
    ∧ (∀ (i : Nat) (r r2 : ResponseDoc), rs[i]? = some r →
        (processChangedRecord now formId rs recordId ch)[i]? = some r2 →
        r2.answers = r.answers ∧ r2.deletedInAirtable = r.deletedInAirtable
        ∧ r2.airtableRecordId = r.airtableRecordId ∧ r2.formId = r.formId)
    ∧ (ch.hasCurrentCellValues = true →
        ∀ r, rs.find? (respMatches recordId formId) = some r →
          (processChangedRecord now formId rs recordId ch).find?
            (respMatches recordId formId) = some { r with lastSyncedAt := now }) := by
  by_cases hc : ch.hasCurrentCellValues = true
  · refine ⟨?_, ?_, ?_⟩
    · simp only [processChangedRecord, hc, if_true]
      exact updateFirst_length _ _ rs
    · intro i r r2 h1 h2
      simp only [processChangedRecord, hc, if_true] at h2
      rcases updateFirst_getElem? (respMatches recordId formId)
          (fun r => { r with lastSyncedAt := now }) rs i with heq | ⟨r0, hr0, hfr⟩
      · rw [h2, h1] at heq
        cases heq
        exact ⟨rfl, rfl, rfl, rfl⟩
      · rw [h1] at hr0
        cases hr0
        rw [h2] at hfr
        cases hfr
        exact ⟨rfl, rfl, rfl, rfl⟩
    · intro _ r hr
      simp only [processChangedRecord, hc, if_true]
      rw [updateFirst_find? (respMatches recordId formId)
            (fun r => { r with lastSyncedAt := now }) (fun x => rfl) rs, hr,
          Option.map_some']
  · have hrs : processChangedRecord now formId rs recordId ch = rs := by
      simp [processChangedRecord, hc]
    refine ⟨by rw [hrs], ?_, fun h => absurd h hc⟩
    intro i r r2 h1 h2
    rw [hrs, h1] at h2
    cases h2
    exact ⟨rfl, rfl, rfl, rfl⟩

/-- Witness for C8: a one-record store with stored answers and a
materialized change: the matched record is returned with only
`lastSyncedAt` restamped; the answers map and flag survive. -/
theorem processChangedRecord_frame_witness :
    (processChangedRecord 9 "f1" [⟨"f1", "rec1", [("a", .str "1")], false, 0⟩] "rec1"
        ⟨true⟩).find? (respMatches "rec1" "f1")
      = some ⟨"f1", "rec1", [("a", .str "1")], false, 9⟩ :=
  (processChangedRecord_frame 9 "f1" "rec1" ⟨true⟩
    [⟨"f1", "rec1", [("a", .str "1")], false, 0⟩]).2.2 rfl
    ⟨"f1", "rec1", [("a", .str "1")], false, 0⟩ rfl

/-- Claim C1: the submission pipeline walks questions in declared order
with an accumulating answers-so-far map; it fails naming a question's key
precisely when that question is the first one (in declared order) that is
visible under the answers accumulated so far, required, and has an
undefined/null/empty candidate answer — and the answers-so-far map used at
each step folds in every earlier visible supplied answer, so later rules
see earlier answers. -/
theorem validateRequiredLoop_error_iff (answers : AnswerMap) (qs : List Question)
    (acc : AnswerMap) (k : String) :
    validateRequiredLoop answers qs acc = .error k ↔
      ∃ (i : Nat) (q : Question), qs[i]? = some q ∧ k = q.questionKey ∧
        failsAt answers (accumAnswers answers (qs.take i) acc) q ∧
        ∀ (j : Nat) (q' : Question), j < i → qs[j]? = some q' →
          ¬ failsAt answers (accumAnswers answers (qs.take j) acc) q' := by
  induction qs generalizing acc with
  | nil => simp [validateRequiredLoop]
  | cons q rest ih =>
    by_cases hfail : failsAt answers acc q
    · obtain ⟨h1, h2, h3⟩ := hfail
      have hloop : validateRequiredLoop answers (q :: rest) acc = .error q.questionKey := by
        simp [validateRequiredLoop, h1, h2, h3]
      rw [hloop]
      constructor
      · intro he
        have hk : q.questionKey = k := by
          simpa using he
        refine ⟨0, q, by simp, hk.symm, ⟨h1, h2, h3⟩, ?_⟩
        intro j q' hj _
        omega
      · rintro ⟨i, q', hget, hk, hfails, hmin⟩
        cases i with
        | zero =>
          have hq : q = q' := by simpa using hget
          subst hq
          rw [hk]
        | succ n =>
          exact absurd ⟨h1, h2, h3⟩ (hmin 0 q (Nat.succ_pos n) (by simp))
    · have hstep : validateRequiredLoop answers (q :: rest) acc =
          validateRequiredLoop answers rest (stepAcc answers acc q) := by
        by_cases hv : shouldShowQuestion q.conditionalRules acc = true
        · have hrm : (q.required && isMissingVal (amFind answers q.questionKey)) = false := by
            by_contra hcon
            rw [Bool.not_eq_false, Bool.and_eq_true] at hcon
            exact hfail ⟨hv, hcon.1, hcon.2⟩
          simp [validateRequiredLoop, stepAcc, hv, hrm]
        · simp [validateRequiredLoop, stepAcc, hv]
      have htake : ∀ (m : Nat), accumAnswers answers ((q :: rest).take (m + 1)) acc
          = accumAnswers answers (rest.take m) (stepAcc answers acc q) := by
        intro m
        simp [accumAnswers, List.take_succ_cons]
      rw [hstep, ih (stepAcc answers acc q)]
      constructor
      · rintro ⟨i, q', hget, hk, hfails, hmin⟩
        refine ⟨i + 1, q', by simpa using hget, hk, ?_, ?_⟩
        · rw [htake i]
          exact hfails
        · intro j q'' hj hget2
          cases j with
          | zero =>
            have hq : q = q'' := by simpa using hget2
            subst hq
            simpa [accumAnswers] using hfail
          | succ m =>
            rw [htake m]
            exact hmin m q'' (by omega) (by simpa using hget2)
      · rintro ⟨i, q', hget, hk, hfails, hmin⟩
        cases i with
        | zero =>
          exfalso
          have hq : q = q' := by simpa using hget
          subst hq
          exact hfail (by simpa [accumAnswers] using hfails)
        | succ n =>
          refine ⟨n, q', by simpa using hget, hk, ?_, ?_⟩
          · rw [← htake n]
            exact hfails
          · intro j q'' hj hget2
            have hm := hmin (j + 1) q'' (by omega) (by simpa using hget2)
            rw [htake j] at hm
            exact hm

/-- Witness for C1: form with `role` (required, no rule) and `githubUrl`
(required, visible only when `role equals Engineer`); answers supply only
`role = Engineer`.  The walk folds `role` into answers-so-far, finds
`githubUrl` visible, required and missing, and fails naming `githubUrl`. -/
theorem validateRequiredLoop_error_iff_witness :
    validateRequiredLoop [("role", .str "Engineer")]
      [⟨"role", "Role", "Role", "singleSelect", true, none, none⟩,
       ⟨"githubUrl", "GitHub URL", "GitHub URL", "singleLineText", true, none,
        some ⟨some "AND", some [⟨"role", "equals", .str "Engineer"⟩]⟩⟩]
      [] = .error "githubUrl" :=
  (validateRequiredLoop_error_iff [("role", .str "Engineer")]
      [⟨"role", "Role", "Role", "singleSelect", true, none, none⟩,
       ⟨"githubUrl", "GitHub URL", "GitHub URL", "singleLineText", true, none,
        some ⟨some "AND", some [⟨"role", "equals", .str "Engineer"⟩]⟩⟩]
      [] "githubUrl").mpr
    ⟨1, ⟨"githubUrl", "GitHub URL", "GitHub URL", "singleLineText", true, none,
         some ⟨some "AND", some [⟨"role", "equals", .str "Engineer"⟩]⟩⟩,
     by simp, rfl, by decide, by
       intro j q' hj hget
       interval_cases j
       · simp at hget
         subst hget
         decide⟩

/-- A question with its conditional rule removed — used to state that the
mapping pass never consults conditional rules. -/
def stripRules (q : Question) : Question :=
  { q with conditionalRules := none }

theorem mapQuestionValue_stripRules (answers : AnswerMap) (files : List UploadedFile)
    (fields : AnswerMap) (q : Question) :
    mapQuestionValue answers files fields (stripRules q)
      = mapQuestionValue answers files fields q := rfl

theorem amFind_amInsert_ne_none (fields : AnswerMap) (k : String) (v : JVal)
    (name : String) (h : amFind fields name ≠ none) :
    amFind (amInsert fields k v) name ≠ none := by
  by_cases hk : (k == name) = true <;> simp [amInsert, amFind, hk, h]

theorem mapQuestionValue_shape (answers : AnswerMap) (files : List UploadedFile)
    (fields : AnswerMap) (q : Question) :
    mapQuestionValue answers files fields q = .ok fields
    ∨ (∃ v, mapQuestionValue answers files fields q
          = .ok (amInsert fields q.airtableFieldName v))
    ∨ mapQuestionValue answers files fields q = .error q.questionKey := by
  obtain ⟨key, fname, label, qtype, req, opts, rules⟩ := q
  simp only
  rcases hfind : amFind answers key with _ | v
  · left; simp only [mapQuestionValue, hfind]
  · cases v with
    | null => left; simp only [mapQuestionValue, hfind]
    | str s =>
      rcases opts with _ | optlist <;>
        simp only [mapQuestionValue, hfind] <;> split_ifs <;>
        first
          | (left; rfl)
          | (right; right; rfl)
          | (right; left; exact ⟨_, rfl⟩)
    | num n =>
      rcases opts with _ | optlist <;>
        simp only [mapQuestionValue, hfind] <;> split_ifs <;>
        first
          | (left; rfl)
          | (right; right; rfl)
          | (right; left; exact ⟨_, rfl⟩)
    | bool b =>
      rcases opts with _ | optlist <;>
        simp only [mapQuestionValue, hfind] <;> split_ifs <;>
        first
          | (left; rfl)
          | (right; right; rfl)
          | (right; left; exact ⟨_, rfl⟩)
    | arr xs =>
      rcases opts with _ | optlist <;>
        simp only [mapQuestionValue, hfind] <;> split_ifs <;>
        first
          | (left; rfl)
          | (right; right; rfl)
          | (right; left; exact ⟨_, rfl⟩)

theorem mapQuestionValue_preserves (answers : AnswerMap) (files : List UploadedFile)
    (fields fields1 : AnswerMap) (q : Question) (name : String)
    (hok : mapQuestionValue answers files fields q = .ok fields1)
    (h : amFind fields name ≠ none) : amFind fields1 name ≠ none := by
  rcases mapQuestionValue_shape answers files fields q with hs | ⟨v, hs⟩ | hs <;>
    rw [hs] at hok
  · cases hok; exact h
  · cases hok; exact amFind_amInsert_ne_none fields q.airtableFieldName v name h
  · exact Except.noConfusion hok

theorem buildAirtableFields_preserves (answers : AnswerMap) (files : List UploadedFile) :
    ∀ (qs : List Question) (fields flds : AnswerMap) (name : String),
      buildAirtableFields answers files qs fields = .ok flds →
      amFind fields name ≠ none → amFind flds name ≠ none := by
  intro qs
  induction qs with
  | nil =>
    intro fields flds name h hne
    cases h
    exact hne
  | cons q rest ih =>
    intro fields flds name h hne
    unfold buildAirtableFields at h
    rcases hm : mapQuestionValue answers files fields q with e | fields1 <;> rw [hm] at h
    · exact Except.noConfusion h
    · exact ih fields1 flds name h
        (mapQuestionValue_preserves answers files fields fields1 q name hm hne)

theorem mapQuestionValue_includes (answers : AnswerMap) (files : List UploadedFile)
    (fields fields1 : AnswerMap) (q : Question) (v : JVal)
    (hty : q.qtype ≠ "multipleAttachments")
    (hv : amFind answers q.questionKey = some v) (hnn : v ≠ .null)
    (hok : mapQuestionValue answers files fields q = .ok fields1) :
    amFind fields1 q.airtableFieldName ≠ none := by
  obtain ⟨key, fname, label, qtype, req, opts, rules⟩ := q
  simp only at hty hv hok ⊢
  cases v with
  | null => exact absurd rfl hnn
  | str s =>
    rcases opts with _ | optlist <;>
      simp only [mapQuestionValue, hv] at hok <;>
      split_ifs at hok <;>
      first
        | (exact absurd (by simpa using ‹(qtype == "multipleAttachments") = true›) hty)
        | (exact Except.noConfusion hok)
        | (rw [Except.ok.injEq] at hok; subst hok; simp [amInsert, amFind])
  | num n =>
    rcases opts with _ | optlist <;>
      simp only [mapQuestionValue, hv] at hok <;>
      split_ifs at hok <;>
      first
        | (exact absurd (by simpa using ‹(qtype == "multipleAttachments") = true›) hty)
        | (exact Except.noConfusion hok)
        | (rw [Except.ok.injEq] at hok; subst hok; simp [amInsert, amFind])
  | bool b =>
    rcases opts with _ | optlist <;>
      simp only [mapQuestionValue, hv] at hok <;>
      split_ifs at hok <;>
      first
        | (exact absurd (by simpa using ‹(qtype == "multipleAttachments") = true›) hty)
        | (exact Except.noConfusion hok)
        | (rw [Except.ok.injEq] at hok; subst hok; simp [amInsert, amFind])
  | arr xs =>
    rcases opts with _ | optlist <;>
      simp only [mapQuestionValue, hv] at hok <;>
      split_ifs at hok <;>
      first
        | (exact absurd (by simpa using ‹(qtype == "multipleAttachments") = true›) hty)
        | (exact Except.noConfusion hok)
        | (rw [Except.ok.injEq] at hok; subst hok; simp [amInsert, amFind])

/-- Counterexample to claim C10 as stated: a `multipleAttachments` question
with a supplied non-null answer contributes nothing to the output field
mapping when no file was uploaded for it — its field comes from `req.files`,
not from the answer value — so not every supplied non-null answer is
included in the output. -/
theorem buildAirtableFields_counterexample :
    ¬ (∀ (qs : List Question) (answers : AnswerMap) (files : List UploadedFile)
         (flds : AnswerMap),
        buildAirtableFields answers files qs [] = .ok flds →
        ∀ q ∈ qs, (∃ v, amFind answers q.questionKey = some v ∧ v ≠ JVal.null) →
        amFind flds q.airtableFieldName ≠ none) := by
  intro h
  exact h [⟨"cv", "CV", "CV", "multipleAttachments", false, none, none⟩]
      [("cv", .str "x")] [] [] rfl
      ⟨"cv", "CV", "CV", "multipleAttachments", false, none, none⟩
      (List.mem_singleton.mpr rfl)
      ⟨.str "x", rfl, fun hx => JVal.noConfusion hx⟩ rfl

/-- Claim C10 (amended): the mapping phase never consults conditional
rules, so every question with a supplied non-null answer of a type other
than `multipleAttachments` is type-validated and its value included in the
output external-field mapping regardless of whether the question was
visible during the visibility/required pass; a `multipleAttachments`
question's field is built from the uploaded files instead, and only when a
matching file is present. -/
theorem buildAirtableFields_spec (answers : AnswerMap) (files : List UploadedFile)
    (qs : List Question) (fields0 : AnswerMap) :
    buildAirtableFields answers files (qs.map stripRules) fields0
      = buildAirtableFields answers files qs fields0
    ∧ (∀ flds, buildAirtableFields answers files qs fields0 = .ok flds →
        ∀ q ∈ qs, q.qtype ≠ "multipleAttachments" →
        ∀ v, amFind answers q.questionKey = some v → v ≠ .null →
        amFind flds q.airtableFieldName ≠ none) := by
  induction qs generalizing fields0 with
  | nil => exact ⟨rfl, by intro flds h q hq; exact absurd hq (List.not_mem_nil q)⟩
  | cons q rest ih =>
    constructor
    · show buildAirtableFields answers files (stripRules q :: rest.map stripRules) fields0
        = buildAirtableFields answers files (q :: rest) fields0
      unfold buildAirtableFields
      rw [mapQuestionValue_stripRules]
      rcases mapQuestionValue answers files fields0 q with e | fields1
      · rfl
      · exact (ih fields1).1
    · intro flds h q' hq' hty v hv hnn
      unfold buildAirtableFields at h
      rcases hm : mapQuestionValue answers files fields0 q with e | fields1 <;>
        rw [hm] at h
      · exact Except.noConfusion h
      · rcases List.mem_cons.mp hq' with rfl | hmem
        · exact buildAirtableFields_preserves answers files rest fields1 flds
            q'.airtableFieldName h
            (mapQuestionValue_includes answers files fields0 fields1 q' v hty hv hnn hm)
        · exact (ih fields1).2 flds h q' hmem hty v hv hnn

/-- Witness for C10 (amended): `githubUrl` is invisible under the answers
(`role = Designer` fails its rule), yet its supplied answer is still mapped
into the output fields. -/
theorem buildAirtableFields_spec_witness :
    shouldShowQuestion
        (some ⟨some "AND", some [⟨"role", "equals", .str "Engineer"⟩]⟩)
        [("role", .str "Designer"), ("githubUrl", .str "gh")] = false
    ∧ buildAirtableFields [("role", .str "Designer"), ("githubUrl", .str "gh")] []
        [⟨"role", "Role", "Role", "singleSelect", false, none, none⟩,
         ⟨"githubUrl", "GitHub URL", "GitHub URL", "singleLineText", false, none,
          some ⟨some "AND", some [⟨"role", "equals", .str "Engineer"⟩]⟩⟩] []
        = .ok [("GitHub URL", .str "gh"), ("Role", .str "Designer")]
    ∧ amFind [("GitHub URL", JVal.str "gh"), ("Role", JVal.str "Designer")]
        "GitHub URL" ≠ none :=
  ⟨by decide, rfl,
   (buildAirtableFields_spec [("role", .str "Designer"), ("githubUrl", .str "gh")] []
      [⟨"role", "Role", "Role", "singleSelect", false, none, none⟩,
       ⟨"githubUrl", "GitHub URL", "GitHub URL", "singleLineText", false, none,
        some ⟨some "AND", some [⟨"role", "equals", .str "Engineer"⟩]⟩⟩] []).2
     [("GitHub URL", .str "gh"), ("Role", .str "Designer")] rfl
     ⟨"githubUrl", "GitHub URL", "GitHub URL", "singleLineText", false, none,
      some ⟨some "AND", some [⟨"role", "equals", .str "Engineer"⟩]⟩⟩
     (by simp) (by decide) (.str "gh") rfl (fun hx => JVal.noConfusion hx)⟩

/-- Written from the claim's words, for comparison with
`validateConditionalRules`: some condition references a key not present in
the question list, or references its own owning question's key, or uses an
operator outside the three known ones, or its rule uses a combinator
outside `{AND, OR}`. -/
def claimViolation (questions : List Question) : Prop :=
  ∃ q ∈ questions, ∃ r, q.conditionalRules = some r ∧
    ((∃ cs, r.conditions = some cs ∧ ∃ c ∈ cs,
        (c.questionKey ∉ questions.map (fun q' => q'.questionKey)
         ∨ c.questionKey = q.questionKey
         ∨ c.operator ∉ (["equals", "notEquals", "contains"] : List String)))
     ∨ (∃ l, r.logic = some l ∧ l ∉ (["AND", "OR"] : List String)))

/-- What `validateConditionalRules` actually flags: rules without a
`conditions` array are skipped entirely, and a present-but-falsy (empty
string) combinator is never flagged. -/
def amendedViolation (questions : List Question) : Prop :=
  ∃ q ∈ questions, ∃ r, q.conditionalRules = some r ∧ ∃ cs, r.conditions = some cs ∧
    ((∃ c ∈ cs,
        (questions.map (fun q' => q'.questionKey)).contains c.questionKey = false
        ∨ c.questionKey = q.questionKey
        ∨ (["equals", "notEquals", "contains"] : List String).contains c.operator = false)
     ∨ (∃ l, r.logic = some l ∧ l ≠ ""
          ∧ (["AND", "OR"] : List String).contains l = false))

/-- Counterexample to claim C3 as stated: a question whose rules object
carries the unknown combinator `XOR` but no `conditions` array is skipped
by the validator (`if (!rules || !rules.conditions) return;`), so
`validate` returns an empty error list although a combinator outside
`{AND, OR}` is used. -/
theorem validateConditionalRules_counterexample :
    ¬ (∀ questions : List Question,
        (validateConditionalRules questions).2 ≠ [] ↔ claimViolation questions) := by
  intro h
  have hv : claimViolation
      [⟨"a", "A", "A", "singleLineText", false, none, some ⟨some "XOR", none⟩⟩] := by
    refine ⟨⟨"a", "A", "A", "singleLineText", false, none, some ⟨some "XOR", none⟩⟩,
      List.mem_singleton.mpr rfl, ⟨some "XOR", none⟩, rfl,
      Or.inr ⟨"XOR", rfl, ?_⟩⟩
    decide
  exact (h [⟨"a", "A", "A", "singleLineText", false, none,
    some ⟨some "XOR", none⟩⟩]).mpr hv rfl

set_option maxHeartbeats 2000000 in
theorem mem_validateConditionalRules_iff (questions : List Question) (e : RuleError) :
    e ∈ (validateConditionalRules questions).2 ↔
      ∃ (i : Nat) (q : Question), questions[i]? = some q ∧
        e ∈ questionErrors (questions.map (fun q' => q'.questionKey)) i q := by
  have hval : (validateConditionalRules questions).2
      = (questions.enum.map (fun p =>
          questionErrors (questions.map (fun q' => q'.questionKey)) p.1 p.2)).flatten := rfl
  rw [hval]
  constructor
  · intro h
    rw [List.mem_flatten] at h
    obtain ⟨l, hl, hel⟩ := h
    rw [List.mem_map] at hl
    obtain ⟨⟨i, q⟩, hiq, rfl⟩ := hl
    exact ⟨i, q, List.mk_mem_enum_iff_getElem?.mp hiq, hel⟩
  · rintro ⟨i, q, hi, he⟩
    rw [List.mem_flatten]
    refine ⟨questionErrors (questions.map (fun q' => q'.questionKey)) i q, ?_, he⟩
    have hm : (i, q) ∈ questions.enum := List.mk_mem_enum_iff_getElem?.mpr hi
    exact List.mem_map_of_mem
      (fun p => questionErrors (questions.map (fun q' => q'.questionKey)) p.1 p.2) hm

theorem questionErrors_sound (keys : List String) (i : Nat) (q : Question)
    (e : RuleError) (he : e ∈ questionErrors keys i q) :
    ∃ r, q.conditionalRules = some r ∧ ∃ cs, r.conditions = some cs ∧
      ((∃ c ∈ cs, keys.contains c.questionKey = false ∨ c.questionKey = q.questionKey
          ∨ (["equals", "notEquals", "contains"] : List String).contains c.operator = false)
       ∨ (∃ l, r.logic = some l ∧ l ≠ ""
            ∧ (["AND", "OR"] : List String).contains l = false)) := by
  unfold questionErrors at he
  rcases hr : q.conditionalRules with _ | r
  · simp [hr] at he
  · simp only [hr] at he
    rcases hcs : r.conditions with _ | cs
    · simp [hcs] at he
    · simp only [hcs] at he
      refine ⟨r, rfl, cs, hcs, ?_⟩
      rcases List.mem_append.mp he with hcond | hlogic
      · left
        rw [List.mem_flatten] at hcond
        obtain ⟨l, hl, hel⟩ := hcond
        rw [List.mem_map] at hl
        obtain ⟨⟨j, c⟩, hjc, rfl⟩ := hl
        refine ⟨c, List.getElem?_mem (List.mk_mem_enum_iff_getElem?.mp hjc), ?_⟩
        by_cases h1 : keys.contains c.questionKey = true
        · by_cases h2 : (c.questionKey == q.questionKey) = true
          · exact Or.inr (Or.inl (by simpa using h2))
          · by_cases h3 :
                (["equals", "notEquals", "contains"] : List String).contains c.operator = true
            · exfalso
              unfold conditionErrors at hel
              rw [if_pos h1, if_neg h2, if_pos h3] at hel
              simp at hel
            · exact Or.inr (Or.inr (by simpa using h3))
        · exact Or.inl (by simpa using h1)
      · right
        unfold logicErrors at hlogic
        rcases hll : r.logic with _ | l
        · simp [hll] at hlogic
        · simp only [hll] at hlogic
          by_cases he1 : (l == "") = true
          · rw [if_pos he1] at hlogic
            simp at hlogic
          · rw [if_neg he1] at hlogic
            by_cases he2 : (["AND", "OR"] : List String).contains l = true
            · rw [if_pos he2] at hlogic
              simp at hlogic
            · exact ⟨l, rfl, by simpa using he1, by simpa using he2⟩

theorem mem_questionErrors_of_cond (keys : List String) (i j : Nat) (q : Question)
    (r : ConditionalRules) (cs : List Condition) (c : Condition) (e : RuleError)
    (hr : q.conditionalRules = some r) (hcs : r.conditions = some cs)
    (hj : cs[j]? = some c) (he : e ∈ conditionErrors keys i q.questionKey j c) :
    e ∈ questionErrors keys i q := by
  simp only [questionErrors, hr, hcs]
  refine List.mem_append.mpr (Or.inl ?_)
  rw [List.mem_flatten]
  exact ⟨conditionErrors keys i q.questionKey j c,
    List.mem_map.mpr ⟨(j, c), List.mk_mem_enum_iff_getElem?.mpr hj, rfl⟩, he⟩

theorem mem_questionErrors_of_logic (keys : List String) (i : Nat) (q : Question)
    (r : ConditionalRules) (l : String) (hr : q.conditionalRules = some r)
    (hcs : r.conditions ≠ none) (hl : r.logic = some l) (hne : l ≠ "")
    (hcont : (["AND", "OR"] : List String).contains l = false) :
    (⟨i, q.questionKey, none, "Invalid logic operator \"" ++ l ++ "\""⟩ : RuleError)
      ∈ questionErrors keys i q := by
  rcases hcs2 : r.conditions with _ | cs
  · exact absurd hcs2 hcs
  · simp only [questionErrors, hr, hcs2]
    refine List.mem_append.mpr (Or.inr ?_)
    have hb : (l == "") = false := beq_eq_false_iff_ne.mpr hne
    simp [logicErrors, hl, hb]
    simpa using hcont

theorem missing_mem_conditionErrors (keys : List String) (i j : Nat) (qKey : String)
    (c : Condition) (h : keys.contains c.questionKey = false) :
    (⟨i, qKey, some j,
      "Referenced question \"" ++ c.questionKey ++ "\" does not exist"⟩ : RuleError)
      ∈ conditionErrors keys i qKey j c := by
  unfold conditionErrors
  rw [if_neg (by rw [h]; exact Bool.false_ne_true)]
  exact List.mem_append.mpr (Or.inl
    (List.mem_append.mpr (Or.inl (List.mem_singleton.mpr rfl))))

theorem self_mem_conditionErrors (keys : List String) (i j : Nat) (qKey : String)
    (c : Condition) (h : c.questionKey = qKey) :
    (⟨i, qKey, some j,
      "Question cannot have conditional rule referencing itself"⟩ : RuleError)
      ∈ conditionErrors keys i qKey j c := by
  unfold conditionErrors
  refine List.mem_append.mpr (Or.inl (List.mem_append.mpr (Or.inr ?_)))
  rw [if_pos (beq_iff_eq.mpr h)]
  exact List.mem_singleton.mpr rfl

theorem op_mem_conditionErrors (keys : List String) (i j : Nat) (qKey : String)
    (c : Condition)
    (h : (["equals", "notEquals", "contains"] : List String).contains c.operator = false) :
    (⟨i, qKey, some j, "Invalid operator \"" ++ c.operator ++ "\""⟩ : RuleError)
      ∈ conditionErrors keys i qKey j c := by
  unfold conditionErrors
  refine List.mem_append.mpr (Or.inr ?_)
  rw [if_neg (by rw [h]; exact Bool.false_ne_true)]
  exact List.mem_singleton.mpr rfl

set_option maxHeartbeats 4000000 in
/-- Claim C3 (amended): `validateConditionalRules` returns a non-empty
error list iff some question's rule carries a `conditions` array and
either some condition in it references a key not present in the question
list, references its own owning question's key, or uses an operator
outside `{equals, notEquals, contains}`, or the rule's combinator is
present, non-empty, and outside `{AND, OR}`; and the list contains an
entry (tagged with the offending question index/key and condition index)
for every such violation, not only the first.  Rules without a
`conditions` array are skipped entirely, and a present-but-empty
combinator is never flagged. -/
theorem validateConditionalRules_spec (questions : List Question) :
    ((validateConditionalRules questions).2 ≠ [] ↔ amendedViolation questions)
    ∧ (∀ (i j : Nat) (q : Question) (r : ConditionalRules) (cs : List Condition)
         (c : Condition),
        questions[i]? = some q → q.conditionalRules = some r → r.conditions = some cs →
        cs[j]? = some c →
          (((questions.map (fun q' => q'.questionKey)).contains c.questionKey = false →
              (⟨i, q.questionKey, some j,
                "Referenced question \"" ++ c.questionKey ++ "\" does not exist"⟩ : RuleError)
                ∈ (validateConditionalRules questions).2)
           ∧ (c.questionKey = q.questionKey →
              (⟨i, q.questionKey, some j,
                "Question cannot have conditional rule referencing itself"⟩ : RuleError)
                ∈ (validateConditionalRules questions).2)
           ∧ ((["equals", "notEquals", "contains"] : List String).contains c.operator
                = false →
              (⟨i, q.questionKey, some j,
                "Invalid operator \"" ++ c.operator ++ "\""⟩ : RuleError)
                ∈ (validateConditionalRules questions).2)))
    ∧ (∀ (i : Nat) (q : Question) (r : ConditionalRules) (l : String),
        questions[i]? = some q → q.conditionalRules = some r → r.conditions ≠ none →
        r.logic = some l → l ≠ "" →
        (["AND", "OR"] : List String).contains l = false →
        (⟨i, q.questionKey, none, "Invalid logic operator \"" ++ l ++ "\""⟩ : RuleError)
          ∈ (validateConditionalRules questions).2) := by
  refine ⟨⟨?_, ?_⟩, ?_, ?_⟩
  · intro hne
    obtain ⟨e, he⟩ := List.exists_mem_of_ne_nil _ hne
    obtain ⟨i, q, hi, heq⟩ := (mem_validateConditionalRules_iff questions e).mp he
    obtain ⟨r, hr, cs, hcs, hviol⟩ :=
      questionErrors_sound (questions.map (fun q' => q'.questionKey)) i q e heq
    exact ⟨q, List.getElem?_mem hi, r, hr, cs, hcs, hviol⟩
  · rintro ⟨q, hq, r, hr, cs, hcs, hviol⟩
    obtain ⟨i, hi⟩ := List.mem_iff_getElem?.mp hq
    rcases hviol with ⟨c, hc, hflags⟩ | ⟨l, hl, hlne, hlcont⟩
    · obtain ⟨j, hj⟩ := List.mem_iff_getElem?.mp hc
      rcases hflags with h1 | h2 | h3
      · exact List.ne_nil_of_mem ((mem_validateConditionalRules_iff questions
          ⟨i, q.questionKey, some j,
           "Referenced question \"" ++ c.questionKey ++ "\" does not exist"⟩).mpr
          ⟨i, q, hi, mem_questionErrors_of_cond _ i j q r cs c _ hr hcs hj
            (missing_mem_conditionErrors _ i j q.questionKey c h1)⟩)
      · exact List.ne_nil_of_mem ((mem_validateConditionalRules_iff questions
          ⟨i, q.questionKey, some j,
           "Question cannot have conditional rule referencing itself"⟩).mpr
          ⟨i, q, hi, mem_questionErrors_of_cond _ i j q r cs c _ hr hcs hj
            (self_mem_conditionErrors _ i j q.questionKey c h2)⟩)
      · exact List.ne_nil_of_mem ((mem_validateConditionalRules_iff questions
          ⟨i, q.questionKey, some j,
           "Invalid operator \"" ++ c.operator ++ "\""⟩).mpr
          ⟨i, q, hi, mem_questionErrors_of_cond _ i j q r cs c _ hr hcs hj
            (op_mem_conditionErrors _ i j q.questionKey c h3)⟩)
    · exact List.ne_nil_of_mem ((mem_validateConditionalRules_iff questions
        ⟨i, q.questionKey, none, "Invalid logic operator \"" ++ l ++ "\""⟩).mpr
        ⟨i, q, hi, mem_questionErrors_of_logic _ i q r l hr (by simp [hcs]) hl
          hlne hlcont⟩)
  · intro i j q r cs c hi hr hcs hj
    refine ⟨?_, ?_, ?_⟩
    · intro h1
      exact (mem_validateConditionalRules_iff questions _).mpr
        ⟨i, q, hi, mem_questionErrors_of_cond _ i j q r cs c _ hr hcs hj
          (missing_mem_conditionErrors _ i j q.questionKey c h1)⟩
    · intro h2
      exact (mem_validateConditionalRules_iff questions _).mpr
        ⟨i, q, hi, mem_questionErrors_of_cond _ i j q r cs c _ hr hcs hj
          (self_mem_conditionErrors _ i j q.questionKey c h2)⟩
    · intro h3
      exact (mem_validateConditionalRules_iff questions _).mpr
        ⟨i, q, hi, mem_questionErrors_of_cond _ i j q r cs c _ hr hcs hj
          (op_mem_conditionErrors _ i j q.questionKey c h3)⟩
  · intro i q r l hi hr hcs hl hlne hlcont
    exact (mem_validateConditionalRules_iff questions _).mpr
      ⟨i, q, hi, mem_questionErrors_of_logic _ i q r l hr hcs hl hlne hlcont⟩

/-- First witness question for the C3 witness: self-reference, unknown
operator, and a missing-key reference. -/
def QA : Question :=
  ⟨"a", "A", "A", "singleLineText", false, none,
    some ⟨some "AND", some [⟨"a", "badOp", .str "x"⟩,
                            ⟨"missing", "equals", .str "y"⟩]⟩⟩

/-- Second witness question for the C3 witness: unknown combinator with an
empty conditions array. -/
def QB : Question :=
  ⟨"b", "B", "B", "singleLineText", false, none, some ⟨some "XOR", some []⟩⟩

/-- Witness for C3 (amended): a form whose first question carries a
self-referencing condition with an unknown operator and a condition on a
missing key, and whose second question uses the combinator `XOR` with an
empty conditions array: all four violations are reported, each tagged
with its question index/key (and condition index), and the error list is
non-empty. -/
theorem validateConditionalRules_spec_witness :
    (⟨0, "a", some 0, "Question cannot have conditional rule referencing itself"⟩ : RuleError)
      ∈ (validateConditionalRules
          [QA, QB]).2
    ∧ (⟨0, "a", some 0, "Invalid operator \"badOp\""⟩ : RuleError)
      ∈ (validateConditionalRules
          [QA, QB]).2
    ∧ (⟨0, "a", some 1, "Referenced question \"missing\" does not exist"⟩ : RuleError)
      ∈ (validateConditionalRules
          [QA, QB]).2
    ∧ (⟨1, "b", none, "Invalid logic operator \"XOR\""⟩ : RuleError)
      ∈ (validateConditionalRules
          [QA, QB]).2
    ∧ (validateConditionalRules
          [QA, QB]).2 ≠ [] := by
  refine ⟨?_, ?_, ?_, ?_, ?_⟩
  · exact ((validateConditionalRules_spec [QA, QB]).2.1 0 0 QA
      ⟨some "AND", some [⟨"a", "badOp", .str "x"⟩, ⟨"missing", "equals", .str "y"⟩]⟩
      [⟨"a", "badOp", .str "x"⟩, ⟨"missing", "equals", .str "y"⟩]
      ⟨"a", "badOp", .str "x"⟩ rfl rfl rfl rfl).2.1 rfl
  · exact ((validateConditionalRules_spec [QA, QB]).2.1 0 0 QA
      ⟨some "AND", some [⟨"a", "badOp", .str "x"⟩, ⟨"missing", "equals", .str "y"⟩]⟩
      [⟨"a", "badOp", .str "x"⟩, ⟨"missing", "equals", .str "y"⟩]
      ⟨"a", "badOp", .str "x"⟩ rfl rfl rfl rfl).2.2 (by decide)
  · exact ((validateConditionalRules_spec [QA, QB]).2.1 0 1 QA
      ⟨some "AND", some [⟨"a", "badOp", .str "x"⟩, ⟨"missing", "equals", .str "y"⟩]⟩
      [⟨"a", "badOp", .str "x"⟩, ⟨"missing", "equals", .str "y"⟩]
      ⟨"missing", "equals", .str "y"⟩ rfl rfl rfl rfl).1 (by decide)
  · exact (validateConditionalRules_spec [QA, QB]).2.2 1 QB
      ⟨some "XOR", some []⟩ "XOR" rfl rfl
      (fun h => Option.noConfusion h) rfl (by decide) (by decide)
  · exact List.ne_nil_of_mem
      ((validateConditionalRules_spec [QA, QB]).2.2 1 QB
        ⟨some "XOR", some []⟩ "XOR" rfl rfl
        (fun h => Option.noConfusion h) rfl (by decide) (by decide))

end FormBuilder
